import Mathlib

/-
  Verification development for the diffalayze repository.

  Shallow embedding of the coordination core:
  - utils/llm_client.py   : _robust_json (defensive JSON unwrapping)
  - utils/llmanalyze.py   : level_ge, the five pipeline stages, TriggerTool
  - diffalayze.py         : resolve_target_dir, load_and_run, run_ghidriff_diff,
                            _ghidriff_worker (semaphore gating), run_llmanalyze,
                            the sequential analysis loop of __main__

  External effects (filesystem, subprocesses, LLM backends) are modelled as
  explicit function parameters; exceptions are modelled with Except; Python
  lists/dicts become Lean lists/structures with Option fields.
-/

/-! ## Severity scale (utils/llmanalyze.py, LEVELS and level_ge) -/

/-- Embeds `LEVELS = ["NONE", "LOW", "MEDIUM", "HIGH", "CRITICAL"]`
(utils/llmanalyze.py line 20). -/
def LEVELS : List String := ["NONE", "LOW", "MEDIUM", "HIGH", "CRITICAL"]

/-- Embeds the ASCII fragment of Python `str.upper` on one character:
a lowercase ASCII letter (code 97..122) is mapped 32 code points down,
every other character is unchanged.  The scale tokens are pure ASCII, so
the ASCII fragment is the relevant one. -/
def upChar (c : Char) : Char :=
  if 97 ≤ c.toNat ∧ c.toNat ≤ 122 then Char.ofNat (c.toNat - 32) else c

/-- Embeds Python `str.upper` (ASCII fragment), applied characterwise. -/
def upStr (s : String) : String := ⟨s.data.map upChar⟩

/-- Embeds Python `list.index` on a list of strings, with the `ValueError`
on a missing element modelled as `none`. -/
def list_index (s : String) : List String → Option Nat
  | [] => none
  | t :: ts => if s.data = t.data then some 0 else (list_index s ts).map (· + 1)

/-- Embeds `level_ge` (utils/llmanalyze.py lines 28-32):
`LEVELS.index(a.upper()) >= LEVELS.index(b.upper())`, with any
`ValueError` (either index lookup failing) giving `False`. -/
def level_ge (a b : String) : Bool :=
  match list_index (upStr a) LEVELS, list_index (upStr b) LEVELS with
  | some i, some j => decide (j ≤ i)
  | _, _ => false

/-- Modelled from the spec (§3): the rank of a token on the ordered severity
sequence `NONE < LOW < MEDIUM < HIGH < CRITICAL`; tokens not on the scale
have no rank.  This is the spec-side definition used to compare `level_ge`
against the declared total order. -/
def specRank (s : String) : Option Nat :=
  if s = "NONE" then some 0
  else if s = "LOW" then some 1
  else if s = "MEDIUM" then some 2
  else if s = "HIGH" then some 3
  else if s = "CRITICAL" then some 4
  else none

/-- Modelled from the spec (§3): `a` is greater than or equal to `b` on the
total order of the severity scale; tokens without a rank never compare. -/
def specScaleGe (a b : String) : Bool :=
  match specRank a, specRank b with
  | some i, some j => decide (j ≤ i)
  | _, _ => false

/-! ## RobustDecoder (utils/llm_client.py, _robust_json) -/

/-- The shape of a Python value seen by `_robust_json`, abstracted over the
payload type `α` of a JSON object (dict): a dict, a string that is the JSON
encoding of another such value, a string that is not valid JSON, or any
other non-dict non-string value. -/
inductive JVal (α : Type) where
  | mapping (m : α)
  | strEnc (v : JVal α)
  | strGarbage
  | other
deriving DecidableEq

/-- Embeds the unwrap loop of `_robust_json` (utils/llm_client.py lines
34-37): `for _ in range(3): if not isinstance(obj, str): break;
obj = json.loads(obj)`.  `json.loads` on a string encoding a value yields
that value; on a non-JSON string it raises (modelled as `Except.error`). -/
def robustJsonLoop {α : Type} : Nat → JVal α → Except String (JVal α)
  | 0, obj => .ok obj
  | fuel + 1, obj =>
    match obj with
    | .strEnc v => robustJsonLoop fuel v
    | .strGarbage => .error "json decode error"
    | v => .ok v

/-- Embeds `_robust_json` (utils/llm_client.py lines 32-40): run the
bounded unwrap loop, then require the result to be a dict, raising
`ValueError("response is not a JSON object")` otherwise. -/
def robust_json {α : Type} (txt : JVal α) : Except String α :=
  match robustJsonLoop 3 txt with
  | .error e => .error e
  | .ok (.mapping m) => .ok m
  | .ok _ => .error "response is not a JSON object"

/-- A mapping re-encoded as a JSON string `k` times: `wrap m 0` is the
mapping itself, `wrap m (k+1)` is the JSON-string encoding of
`wrap m k`. -/
def wrap {α : Type} (m : α) : Nat → JVal α
  | 0 => .mapping m
  | k + 1 => .strEnc (wrap m k)

/-! ## TriggerGate (utils/llmanalyze.py, TriggerTool) -/

/-- The evaluation dict produced by the evaluation stage; the keys
`level`, `security_score` and `summary` may each be absent. -/
structure Evaluation where
  level? : Option String
  score? : Option String
  summary? : Option String
deriving DecidableEq

/-- Outcome of the external trigger subprocess: exit code and the two
captured output streams. -/
structure ActionOutcome where
  returncode : Int
  stdout : String
  stderr : String

/-- The dict returned by `TriggerTool.exec`: `triggered` plus, when the
action ran, its exit code and captured streams. -/
structure TriggerResult where
  triggered : Bool
  returncode : Option Int
  stdout : Option String
  stderr : Option String
deriving DecidableEq

/-- Embeds `str(evaluation.get("level", "NONE"))` applied to
`shared.get("evaluation", {})` (utils/llmanalyze.py lines 132 and 141):
a missing evaluation dict or a missing `level` key defaults to `"NONE"`. -/
def evalLevel (evaluation : Option Evaluation) : String :=
  ((evaluation.getD ⟨none, none, none⟩).level?).getD "NONE"

/-- Embeds `evaluation.get('security_score','N/A')`
(utils/llmanalyze.py line 146). -/
def evalScore (evaluation : Option Evaluation) : String :=
  ((evaluation.getD ⟨none, none, none⟩).score?).getD "N/A"

/-- Embeds `TriggerTool.exec` (utils/llmanalyze.py lines 135-155).
`runAction cmd line` models `subprocess.run(shlex.split(cmd), input=line,
...)`; `cmd : Option String` models the optional trigger command, with
Python's falsiness test `if not cmd` covering both `None` and `""`. -/
def trigger_exec (runAction : String → String → ActionOutcome)
    (cmd : Option String) (threshold target : String)
    (evaluation : Option Evaluation) : TriggerResult :=
  match cmd with
  | none => ⟨false, none, none, none⟩
  | some c =>
    if c = "" then ⟨false, none, none, none⟩
    else
      let level := evalLevel evaluation
      if ¬ level_ge level threshold then ⟨false, none, none, none⟩
      else
        let line := target ++ " " ++ evalScore evaluation ++ " " ++ level ++ "\n"
        let proc := runAction c line
        ⟨true, some proc.returncode, some proc.stdout, some proc.stderr⟩

/-! ## Document ordering (utils/llmanalyze.py, LoadMarkdown.prep) -/

/-- Code-point lexicographic comparison of character lists, embedding the
comparison Python uses when sorting the globbed document paths. -/
def lexLe : List Char → List Char → Bool
  | [], _ => true
  | _ :: _, [] => false
  | a :: as, b :: bs =>
    if a.toNat < b.toNat then true
    else if b.toNat < a.toNat then false
    else lexLe as bs

/-- Code-point lexicographic order on strings (Python `str` comparison,
hence `Path` comparison for files of one directory). -/
def strLe (a b : String) : Bool := lexLe a.data b.data

/-- `strLe` as a relation, for use with `List.insertionSort`. -/
def strLeP (a b : String) : Prop := strLe a b = true

instance : DecidableRel strLeP := fun a b =>
  inferInstanceAs (Decidable (strLe a b = true))

/-- Embeds `sorted(self.input_dir.glob("*.md"))` (utils/llmanalyze.py
line 49): the globbed filenames sorted lexicographically.  Python's sort
is stable, and `strLeP` is a total order (antisymmetric up to equality),
so the sorted list is unique and insertion sort computes it. -/
def loadMarkdown_prep (files : List String) : List String :=
  List.insertionSort strLeP files

/-! ## AnalysisPipeline (utils/llmanalyze.py, the five stages) -/

/-- One chat message: a role tag and text content. -/
structure Message where
  role : String
  content : String
deriving DecidableEq

/-- One prompt definition from prompts.yaml: `system` and `user` texts
(`prompt.get("system", "")` / `prompt.get('user','')` both default to the
empty string; the embedding stores the defaulted values). -/
structure PromptDef where
  system : String
  user : String

/-- The three prompt definitions the pipeline uses. -/
structure Prompts where
  per_doc : PromptDef
  final_synthesis : PromptDef
  evaluation : PromptDef

/-- Embeds the message construction repeated by the analyze, synthesize
and evaluate stages (utils/llmanalyze.py lines 73-76, 94-97, 112-115):
`[{"role": "system", ...prompt system...},
  {"role": "user", ...prompt user + "\n\n" + payload...}]`. -/
def promptMessages (prompt : PromptDef) (payload : String) : List Message :=
  [⟨"system", prompt.system⟩, ⟨"user", prompt.user ++ "\n\n" ++ payload⟩]

/-- One loaded document: its path and its converted markdown text
(utils/llmanalyze.py line 56). -/
structure Doc where
  path : String
  markdown : String
deriving DecidableEq

/-- One per-document analysis: the document's path and the analysis text
(utils/llmanalyze.py line 78). -/
structure DocAnalysis where
  path : String
  analysis : String
deriving DecidableEq

/-- Embeds the loop of `AnalyzeEachDoc.exec` (utils/llmanalyze.py lines
69-79): one model call per document, in document order, collecting one
analysis per document; an exception from any call propagates and no
partial result list is retained. -/
def analyzeDocs (llm : List Message → Except String String)
    (prompt : PromptDef) : List Doc → Except String (List DocAnalysis)
  | [] => .ok []
  | d :: ds =>
    match llm (promptMessages prompt d.markdown) with
    | .error e => .error e
    | .ok a =>
      match analyzeDocs llm prompt ds with
      | .error e => .error e
      | .ok rest => .ok (⟨d.path, a⟩ :: rest)

/-- Embeds `"\n\n---\n\n".join(a["analysis"] for a in anns)`
(utils/llmanalyze.py line 93): the synthesis stage's combined input. -/
def combineAnalyses (anns : List DocAnalysis) : String :=
  String.intercalate "\n\n---\n\n" (anns.map (fun a => a.analysis))

/-- The external collaborators one pipeline run reads: the globbed
document file list, the HTML-to-markdown converter, the text model call
(`call_llm`), the evaluation model call at JSON granularity (the text
returned for `call_llm_json`, seen through the `JVal` lens before
`_robust_json` runs), and the trigger subprocess. -/
structure PipelineEnv where
  files : List String
  convert : String → String
  llm : List Message → Except String String
  llmRaw : List Message → Except String (JVal Evaluation)
  runAction : String → String → ActionOutcome

/-- The shared context after a successful pipeline run: the fields
`docs`, `doc_analyses`, `final`, `evaluation`, `trigger_result` written
by the five stages' `post` hooks. -/
structure SharedFinal where
  docs : List Doc
  doc_analyses : List DocAnalysis
  final : String
  evaluation : Evaluation
  trigger_result : TriggerResult

/-- Embeds `flow.run(shared)` for the fixed chain
`LoadMarkdown >> AnalyzeEachDoc >> FinalReport >> EvaluateFinal >>
TriggerTool` (utils/llmanalyze.py lines 162-169): stages run strictly in
order, each reading only fields written by earlier stages; a stage
exception aborts the whole run. -/
def flowRun (P : PipelineEnv) (prompts : Prompts) (cmd : Option String)
    (thr tgt : String) : Except String SharedFinal :=
  let paths := loadMarkdown_prep P.files
  let docs := paths.map (fun p => { path := p, markdown := P.convert p : Doc })
  match analyzeDocs P.llm prompts.per_doc docs with
  | .error e => .error e
  | .ok anns =>
    match P.llm (promptMessages prompts.final_synthesis (combineAnalyses anns)) with
    | .error e => .error e
    | .ok final =>
      match P.llmRaw (promptMessages prompts.evaluation final) with
      | .error e => .error e
      | .ok rawEval =>
        match robust_json rawEval with
        | .error e => .error e
        | .ok evaluation =>
          .ok { docs := docs, doc_analyses := anns, final := final,
                evaluation := evaluation,
                trigger_result :=
                  trigger_exec P.runAction cmd thr tgt (some evaluation) }

/-- Embeds the report appendix of `main` (utils/llmanalyze.py lines
207-212), with the `.get` defaults `UNKNOWN`, `N/A` and the empty
summary. -/
def reportAppendix (evaln : Evaluation) : String :=
  "\n\n---\n\n## Security Relevance Evaluation\n**Level:** "
    ++ evaln.level?.getD "UNKNOWN" ++ "  \n**Score:** "
    ++ evaln.score?.getD "N/A" ++ "  \n**Summary:** "
    ++ evaln.summary?.getD "" ++ "\n\n"

/-- Embeds `main` of utils/llmanalyze.py after argument parsing (lines
199-213): run the flow, then write `report + appendix`.  The written
report text is the result; a stage exception reaches the top level
before `write_text` runs, so on error no report text exists. -/
def llmanalyze_main (P : PipelineEnv) (prompts : Prompts)
    (cmd : Option String) (thr tgt : String) : Except String String :=
  match flowRun P prompts cmd thr tgt with
  | .error e => .error e
  | .ok s => .ok (s.final ++ reportAppendix s.evaluation)

/-! ## Orchestrator analysis loop (diffalayze.py, run_llmanalyze and __main__) -/

/-- One queued archive as the orchestrator sees it: whether the
`sxs_html` documents directory exists, and the data the analysis
subprocess would consume. -/
structure ArchiveModel where
  sxsPresent : Bool
  env : PipelineEnv
  prompts : Prompts

/-- The orchestrator configuration forwarded to every analysis
subprocess: the severity threshold and the optional trigger command. -/
structure OrchCfg where
  threshold : String
  triggerCmd : Option String

/-- Embeds `run_llmanalyze` (diffalayze.py lines 115-144): if the
`sxs_html` directory is missing, print and return (no report, no error);
otherwise run the analysis subprocess with `check=True`, so a nonzero
exit (any pipeline stage exception) raises `CalledProcessError` to the
caller.  `.ok none` is the skip, `.ok (some report)` a written report,
`.error` the raised `CalledProcessError`. -/
def run_llmanalyze (cfg : OrchCfg) (target : String) (a : ArchiveModel) :
    Except String (Option String) :=
  if ¬ a.sxsPresent then .ok none
  else
    match llmanalyze_main a.env a.prompts cfg.triggerCmd cfg.threshold target with
    | .error e => .error e
    | .ok report => .ok (some report)

/-- Embeds the sequential analysis loop of `__main__` (diffalayze.py
lines 302-306): `for t, a in analyze_queue: run_llmanalyze(t, a)` with no
surrounding try/except.  The first component collects, in order, the
entries actually processed (target, written report if any); the second
records the uncaught exception that terminated the loop, if one did. -/
def analyzeLoop (cfg : OrchCfg) :
    List (String × ArchiveModel) → List (String × Option String) × Option String
  | [] => ([], none)
  | (t, a) :: rest =>
    match run_llmanalyze cfg t a with
    | .error e => ([], some e)
    | .ok r =>
      let done := analyzeLoop cfg rest
      ((t, r) :: done.1, done.2)

/-! ## Diff job execution (diffalayze.py, run_ghidriff_diff) -/

/-- The externally observable effects of one `run_ghidriff_diff` call:
the log lines emitted, where the per-target `ghidriffs` working
directory ended up (`none` = left in place), the `(target, archive)`
entries appended to `analyze_queue`, and how many times the diffing
engine was invoked. -/
structure DiffJobEffects where
  logs : List String
  archivedAt : Option String
  queued : List (String × String)
  engineInvocations : Nat
deriving DecidableEq

/-- Embeds `run_ghidriff_diff` (diffalayze.py lines 147-199), with the
engine subprocess abstracted to its outcome: `engineOk = false` is a
`CalledProcessError` (nonzero exit), in which case the except-branch
logs the failure (plus captured stderr when not verbose) and returns,
leaving the working directory unmoved and enqueueing nothing; on success
the working directory is moved to the timestamped archive path and, when
analysis is enabled, an archive entry is enqueued.  The function always
returns normally: the only raising call sits inside try/except. -/
def run_ghidriff_diff (analyze verbose : Bool) (engineOk : Bool)
    (stderrMsg : Option String) (target ts : String) : DiffJobEffects :=
  let startLog := "[*] Ghidriff (" ++ target ++ ")"
  if engineOk then
    let arch := target ++ "/archive/ghidriffs_" ++ ts
    { logs := [startLog, "[+] Archived to " ++ arch],
      archivedAt := some arch,
      queued := if analyze then [(target, arch)] else [],
      engineInvocations := 1 }
  else
    { logs := [startLog, "[!] Ghidriff failed (" ++ target ++ ")"]
        ++ (if ¬ verbose then (stderrMsg.map (fun m => [m])).getD [] else []),
      archivedAt := none,
      queued := [],
      engineInvocations := 1 }

/-- One diff job's inputs as `run_ghidriff_diff` consumes them. -/
structure JobSpec where
  analyze : Bool
  verbose : Bool
  engineOk : Bool
  stderrMsg : Option String
  target : String
  ts : String

/-- The per-job effects of a whole scheduler run: each job's effects are
a function of that job's own inputs alone (jobs share no state besides
the append-only queue and logs, modelled per job here). -/
def runAllJobs (jobs : List JobSpec) : List DiffJobEffects :=
  jobs.map (fun j => run_ghidriff_diff j.analyze j.verbose j.engineOk j.stderrMsg j.target j.ts)

/-! ## Concurrency gate (diffalayze.py, _ghidriff_worker and the semaphore) -/

/-- The lifecycle phase of one submitted diff job thread: not yet past
the semaphore, holding a slot and running the engine, or finished. -/
inductive JobPhase where
  | pending
  | running
  | done
deriving DecidableEq

/-- Whether a phase is `running`. -/
def phaseRunning : JobPhase → Bool
  | .running => true
  | _ => false

/-- The number of jobs currently executing the diffing engine. -/
def countRunning (s : List JobPhase) : Nat := s.countP phaseRunning

/-- Transition system embedding `_ghidriff_worker` (diffalayze.py lines
202-207) under the semaphore created in `__main__` (line 289):
`submit` models `threading.Thread(...).start()` in `load_and_run` and is
never gated; `start` models the semaphore acquisition at the start of
execution (`with _ghidriff_sema`), enabled only when a slot is free —
except that with `N = 0` the semaphore is `None` and nothing is
acquired; `finish` models the job completing and releasing its slot. -/
inductive SchedStep (N : Nat) : List JobPhase → List JobPhase → Prop where
  | submit (s : List JobPhase) : SchedStep N s (s ++ [JobPhase.pending])
  | start (s : List JobPhase) (i : Nat) (hi : s[i]? = some JobPhase.pending)
      (hslot : N = 0 ∨ countRunning s < N) :
      SchedStep N s (s.set i JobPhase.running)
  | finish (s : List JobPhase) (i : Nat) (hi : s[i]? = some JobPhase.running) :
      SchedStep N s (s.set i JobPhase.done)

/-- States reachable from the initial empty roster by scheduler steps. -/
inductive SchedReach (N : Nat) : List JobPhase → Prop where
  | init : SchedReach N []
  | step {s t : List JobPhase} : SchedReach N s → SchedStep N s t → SchedReach N t

/-! ## Target path resolution (diffalayze.py, resolve_target_dir and load_and_run) -/

/-- POSIX path normalisation on a component list, as `Path.resolve`
performs it lexically (symlinks are not modelled): `.` and empty
components vanish, `..` removes the preceding component (at the root it
stays at the root). -/
def normalizeComponents : List String → List String → List String
  | acc, [] => acc
  | acc, c :: rest =>
    if c = "." ∨ c = "" then normalizeComponents acc rest
    else if c = ".." then normalizeComponents acc.dropLast rest
    else normalizeComponents (acc ++ [c]) rest

/-- A raw path as typed by the user: absolute or relative, with its
components possibly containing `.` and `..`. -/
structure RawPath where
  absolute : Bool
  components : List String

/-- Embeds `p.resolve() if p.is_absolute() else (base / p).resolve()`
(diffalayze.py line 84): resolve against the root for an absolute name,
against the (already resolved) targets directory otherwise. -/
def resolvePath (base : List String) (p : RawPath) : List String :=
  if p.absolute then normalizeComponents [] p.components
  else normalizeComponents base p.components

/-- Embeds `resolve_target_dir` (diffalayze.py lines 81-94): resolve the
name, require the result to lie under the targets directory
(`t.relative_to(base)` raises `ValueError` otherwise), then require it
to be an existing directory.  `isDir` abstracts the filesystem. -/
def resolve_target_dir (base : List String) (isDir : List String → Bool)
    (name : RawPath) : Except String (List String) :=
  let t := resolvePath base name
  if base.isPrefixOf t then
    if isDir t then .ok t else .error "Target directory not found"
  else .error "Target is outside the targets directory"

/-- Embeds the script-loading prefix of `load_and_run` (diffalayze.py
lines 210-226): resolve the target directory (exceptions from
`resolve_target_dir` propagate to the caller before anything is loaded),
locate `fetch_target.py` inside it, return early if it is not a file,
and otherwise load and execute exactly that script.  `.ok (some p)`
means the script at path `p` was loaded and executed; `.ok none` means
the function logged and returned without loading anything; `.error`
means `resolve_target_dir` raised.  The subsequent
`check_and_download` / thread-spawning logic is modelled separately by
the scheduler transition system. -/
def load_and_run (base : List String) (isDir isFile : List String → Bool)
    (name : RawPath) : Except String (Option (List String)) :=
  match resolve_target_dir base isDir name with
  | .error e => .error e
  | .ok t =>
    let script := t ++ ["fetch_target.py"]
    if isFile script then .ok (some script) else .ok none

/-! ## Helper lemmas on the severity scale -/

theorem char_ofNat_sub32_toNat (n : Nat) (h1 : 97 ≤ n) (h2 : n ≤ 122) :
    (Char.ofNat (n - 32)).toNat = n - 32 := by
  interval_cases n <;> decide

theorem upChar_eq_self (c : Char) (h : ¬ (97 ≤ c.toNat ∧ c.toNat ≤ 122)) :
    upChar c = c := by
  unfold upChar
  exact if_neg h

theorem upChar_toNat_of_lower (c : Char) (h : 97 ≤ c.toNat ∧ c.toNat ≤ 122) :
    (upChar c).toNat = c.toNat - 32 := by
  unfold upChar
  rw [if_pos h]
  exact char_ofNat_sub32_toNat c.toNat h.1 h.2

theorem upChar_idem (c : Char) : upChar (upChar c) = upChar c := by
  by_cases h : 97 ≤ c.toNat ∧ c.toNat ≤ 122
  · have ht : (upChar c).toNat = c.toNat - 32 := upChar_toNat_of_lower c h
    apply upChar_eq_self
    rw [ht]
    omega
  · rw [upChar_eq_self c h]
    exact upChar_eq_self c h

theorem upStr_idem (s : String) : upStr (upStr s) = upStr s := by
  unfold upStr
  apply congrArg
  show (s.data.map upChar).map upChar = s.data.map upChar
  rw [List.map_map]
  exact List.map_congr_left (fun a _ => upChar_idem a)

theorem list_index_eq_none_of_notMem (s : String) (l : List String) (h : s ∉ l) :
    list_index s l = none := by
  induction l with
  | nil => rfl
  | cons t ts ih =>
    have h1 : s ≠ t := fun he => h (he ▸ List.mem_cons_self t ts)
    have h2 : s ∉ ts := fun hm => h (List.mem_cons_of_mem t hm)
    have hd : ¬ (s.data = t.data) := fun he => h1 (String.ext he)
    simp [list_index, hd, ih h2]

theorem level_ge_eq_false_of_unrecognized (t x : String) (h : upStr t ∉ LEVELS) :
    level_ge t x = false := by
  unfold level_ge
  rw [list_index_eq_none_of_notMem _ _ h]

theorem level_ge_eq_specScaleGe :
    ∀ a ∈ LEVELS, ∀ b ∈ LEVELS, level_ge a b = specScaleGe a b := by decide

/-! ## Claim theorems: severity scale and trigger gate -/

/-- Claim C1: decoding a mapping re-encoded as a JSON string 0, 1, 2, or
3 times yields the original mapping; 4 or more re-encodings make
`_robust_json` fail with its decode error (the bounded loop never runs
forever: `robust_json` is a total function). -/
theorem c1_robust_json_unwrap_bound {α : Type} (m : α) (k : Nat) :
    (k ≤ 3 → robust_json (wrap m k) = Except.ok m)
    ∧ (4 ≤ k → robust_json (wrap m k) = Except.error "response is not a JSON object") := by
  constructor
  · intro hk
    interval_cases k <;> rfl
  · intro hk
    obtain ⟨j, rfl⟩ : ∃ j, k = j + 4 := ⟨k - 4, by omega⟩
    rfl

theorem c1_witness :
    ((3 : Nat) ≤ 3 ∧ robust_json (wrap (0 : Nat) 3) = Except.ok 0)
    ∧ ((4 : Nat) ≤ 4
        ∧ robust_json (wrap (0 : Nat) 4) = Except.error "response is not a JSON object") :=
  ⟨⟨by decide, (c1_robust_json_unwrap_bound (0 : Nat) 3).1 (by decide)⟩,
   ⟨by decide, (c1_robust_json_unwrap_bound (0 : Nat) 4).2 (by decide)⟩⟩

/-- Claim C10: severity comparison is case-insensitive — `level_ge a b`
equals `level_ge` applied to the uppercased forms of `a` and `b`, so a
level differing from a scale token only in letter case is treated as
that token. -/
theorem c10_level_ge_case_insensitive (a b : String) :
    level_ge a b = level_ge (upStr a) (upStr b) := by
  unfold level_ge
  rw [upStr_idem, upStr_idem]

/-- Claim C5 counterexample: `"none"` is not an element of the scale
`["NONE", "LOW", "MEDIUM", "HIGH", "CRITICAL"]`, yet
`level_ge "none" "NONE"` holds, so a token outside the scale can satisfy
`level_ge` — the claim's third clause fails as stated. -/
theorem c5_counterexample :
    ("none" ∉ LEVELS) ∧ level_ge "none" "NONE" = true := by
  constructor
  · decide
  · decide

/-- Claim C5 (amended): for tokens drawn from the scale, `level_ge` is
reflexive and agrees with the total order
`NONE < LOW < MEDIUM < HIGH < CRITICAL`; and any token whose uppercased
form is not on the scale never satisfies `level_ge` against anything. -/
theorem c5_level_ge_order_amended :
    (∀ a ∈ LEVELS, level_ge a a = true)
    ∧ (∀ a ∈ LEVELS, ∀ b ∈ LEVELS, level_ge a b = specScaleGe a b)
    ∧ (∀ t x, upStr t ∉ LEVELS → level_ge t x = false) :=
  ⟨by decide, level_ge_eq_specScaleGe,
   fun t x h => level_ge_eq_false_of_unrecognized t x h⟩

theorem c5_witness :
    level_ge "HIGH" "HIGH" = true
    ∧ level_ge "LOW" "CRITICAL" = specScaleGe "LOW" "CRITICAL"
    ∧ level_ge "banana" "HIGH" = false :=
  ⟨c5_level_ge_order_amended.1 "HIGH" (by decide),
   c5_level_ge_order_amended.2.1 "LOW" (by decide) "CRITICAL" (by decide),
   c5_level_ge_order_amended.2.2 "banana" "HIGH" (by decide)⟩

/-- Claim C3 counterexample: with the threshold configured to `"NONE"`
(a value drawn from the scale, and a legal CLI choice) and the severity
level missing from the evaluation, the level defaults to `"NONE"`, which
does reach the threshold — the gate even fires when a trigger command is
configured.  The claim's "missing severity never reaches the threshold"
fails as stated. -/
theorem c3_counterexample :
    ("NONE" ∈ LEVELS)
    ∧ level_ge (evalLevel none) "NONE" = true
    ∧ (trigger_exec (fun _ _ => ⟨0, "", ""⟩) (some "notify") "NONE" "tgt" none).triggered
        = true := by
  refine ⟨by decide, by decide, by decide⟩

/-- Claim C3 (amended): in the TriggerGate comparison, an unrecognized
severity (uppercased form not on the scale) never reaches the threshold,
for any threshold; a missing severity defaults to `"NONE"` and never
reaches any threshold drawn from the scale other than `"NONE"` itself. -/
theorem c3_severity_gate_amended (runAction : String → String → ActionOutcome)
    (target : String) :
    (∀ cmd threshold evaluation, upStr (evalLevel evaluation) ∉ LEVELS →
      (trigger_exec runAction cmd threshold target evaluation).triggered = false)
    ∧ (∀ cmd threshold evaluation, evalLevel evaluation = "NONE" →
        threshold ∈ LEVELS → threshold ≠ "NONE" →
      (trigger_exec runAction cmd threshold target evaluation).triggered = false) := by
  have gate : ∀ (cmd : Option String) threshold (evaluation : Option Evaluation),
      level_ge (evalLevel evaluation) threshold = false →
      (trigger_exec runAction cmd threshold target evaluation).triggered = false := by
    intro cmd threshold evaluation hge
    cases cmd with
    | none => rfl
    | some c =>
      by_cases hc : c = ""
      · simp [trigger_exec, hc]
      · simp [trigger_exec, hc, hge]
  constructor
  · intro cmd threshold evaluation h
    exact gate cmd threshold evaluation
      (level_ge_eq_false_of_unrecognized (evalLevel evaluation) threshold h)
  · intro cmd threshold evaluation hlv hmem hne
    apply gate
    rw [hlv]
    have : threshold = "NONE" ∨ threshold = "LOW" ∨ threshold = "MEDIUM"
        ∨ threshold = "HIGH" ∨ threshold = "CRITICAL" := by
      simpa [LEVELS] using hmem
    rcases this with h | h | h | h | h <;> subst h
    · exact absurd rfl hne
    · decide
    · decide
    · decide
    · decide

theorem c3_witness :
    (trigger_exec (fun _ _ => ⟨0, "", ""⟩) (some "notify") "HIGH" "tgt"
        (some ⟨some "banana", none, none⟩)).triggered = false
    ∧ (trigger_exec (fun _ _ => ⟨0, "", ""⟩) (some "notify") "HIGH" "tgt"
        none).triggered = false :=
  ⟨(c3_severity_gate_amended (fun _ _ => ⟨0, "", ""⟩) "tgt").1 (some "notify") "HIGH"
      (some ⟨some "banana", none, none⟩) (by decide),
   (c3_severity_gate_amended (fun _ _ => ⟨0, "", ""⟩) "tgt").2 (some "notify") "HIGH"
      none (by decide) (by decide) (by decide)⟩

/-- Claim C4: with a (non-empty) trigger command configured and the
evaluated severity and threshold drawn from the scale, the gate fires if
and only if the severity is greater than or equal to the threshold on
the total order `NONE < LOW < MEDIUM < HIGH < CRITICAL`; with no
configured command (absent or empty) it never fires and reports the
not-triggered result. -/
theorem c4_trigger_iff_threshold (runAction : String → String → ActionOutcome)
    (threshold target : String) (evaluation : Option Evaluation) :
    (∀ c, c ≠ "" → evalLevel evaluation ∈ LEVELS → threshold ∈ LEVELS →
      ((trigger_exec runAction (some c) threshold target evaluation).triggered = true
        ↔ specScaleGe (evalLevel evaluation) threshold = true))
    ∧ trigger_exec runAction none threshold target evaluation = ⟨false, none, none, none⟩
    ∧ trigger_exec runAction (some "") threshold target evaluation
        = ⟨false, none, none, none⟩ := by
  refine ⟨?_, rfl, by simp [trigger_exec]⟩
  intro c hc hlv hthr
  rw [← level_ge_eq_specScaleGe (evalLevel evaluation) hlv threshold hthr]
  cases hge : level_ge (evalLevel evaluation) threshold
  · simp [trigger_exec, hc, hge]
  · simp [trigger_exec, hc, hge]

theorem c4_witness :
    ((trigger_exec (fun _ _ => ⟨0, "", ""⟩) (some "notify") "HIGH" "tgt"
        (some ⟨some "HIGH", some "9", none⟩)).triggered = true
      ↔ specScaleGe "HIGH" "HIGH" = true)
    ∧ trigger_exec (fun _ _ => ⟨0, "", ""⟩) none "HIGH" "tgt" none
        = ⟨false, none, none, none⟩ :=
  ⟨(c4_trigger_iff_threshold (fun _ _ => ⟨0, "", ""⟩) "HIGH" "tgt"
      (some ⟨some "HIGH", some "9", none⟩)).1 "notify" (by decide) (by decide) (by decide),
   (c4_trigger_iff_threshold (fun _ _ => ⟨0, "", ""⟩) "HIGH" "tgt" none).2.1⟩

/-! ## Helper lemmas on the lexicographic order -/

theorem lexLe_total : ∀ a b, lexLe a b = true ∨ lexLe b a = true := by
  intro a
  induction a with
  | nil => intro b; left; rfl
  | cons x xs ih =>
    intro b
    cases b with
    | nil => right; rfl
    | cons y ys =>
      by_cases h1 : x.toNat < y.toNat
      · left; simp [lexLe, h1]
      · by_cases h2 : y.toNat < x.toNat
        · right; simp [lexLe, h2]
        · rcases ih ys with h | h
          · left; simp [lexLe, h1, h2, h]
          · right; simp [lexLe, h1, h2, h]

theorem lexLe_head_le (x y : Char) (xs ys : List Char)
    (h : lexLe (x :: xs) (y :: ys) = true) : x.toNat ≤ y.toNat := by
  by_contra hgt
  push_neg at hgt
  simp [lexLe, hgt, show ¬ (x.toNat < y.toNat) from by omega] at h

theorem lexLe_tail (x y : Char) (xs ys : List Char)
    (h : lexLe (x :: xs) (y :: ys) = true) (he : x.toNat = y.toNat) :
    lexLe xs ys = true := by
  simpa [lexLe, show ¬ (x.toNat < y.toNat) from by omega,
    show ¬ (y.toNat < x.toNat) from by omega] using h

theorem lexLe_trans :
    ∀ a b c, lexLe a b = true → lexLe b c = true → lexLe a c = true := by
  intro a
  induction a with
  | nil => intro b c _ _; rfl
  | cons x xs ih =>
    intro b c hab hbc
    cases b with
    | nil => simp [lexLe] at hab
    | cons y ys =>
      cases c with
      | nil => simp [lexLe] at hbc
      | cons z zs =>
        have hxy := lexLe_head_le x y xs ys hab
        have hyz := lexLe_head_le y z ys zs hbc
        by_cases h1 : x.toNat < z.toNat
        · simp [lexLe, h1]
        · have hxy2 : x.toNat = y.toNat := by omega
          have hyz2 : y.toNat = z.toNat := by omega
          have t1 := lexLe_tail x y xs ys hab hxy2
          have t2 := lexLe_tail y z ys zs hbc hyz2
          simp [lexLe, h1, show ¬ (z.toNat < x.toNat) from by omega, ih ys zs t1 t2]

instance : IsTotal String strLeP := ⟨fun a b => lexLe_total a.data b.data⟩

instance : IsTrans String strLeP := ⟨fun a b c => lexLe_trans a.data b.data c.data⟩

theorem analyzeDocs_paths (llm : List Message → Except String String)
    (prompt : PromptDef) :
    ∀ (docs : List Doc) (anns : List DocAnalysis),
      analyzeDocs llm prompt docs = .ok anns →
      anns.map (fun a => a.path) = docs.map (fun d => d.path) := by
  intro docs
  induction docs with
  | nil =>
    intro anns h
    simp only [analyzeDocs] at h
    injection h with h
    subst h
    rfl
  | cons d ds ih =>
    intro anns h
    simp only [analyzeDocs] at h
    cases hl : llm (promptMessages prompt d.markdown) with
    | error e => rw [hl] at h; exact absurd h (by simp)
    | ok a =>
      rw [hl] at h
      cases hr : analyzeDocs llm prompt ds with
      | error e => rw [hr] at h; exact absurd h (by simp)
      | ok rest =>
        rw [hr] at h
        injection h with h
        subst h
        simp [ih rest hr]

/-! ## Claim theorem: pipeline ordering -/

/-- Claim C6: the Load stage enumerates document files sorted
lexicographically (a sorted permutation of the directory's file list);
on a successful pipeline run the per-document analyses carry the
documents' paths in that same order; and the synthesis model call's
input is exactly the per-document analysis texts joined with the
separator, in that order, its reply becoming the final report. -/
theorem c6_pipeline_ordering (P : PipelineEnv) (prompts : Prompts)
    (cmd : Option String) (thr tgt : String) :
    (List.Sorted strLeP (loadMarkdown_prep P.files)
      ∧ (loadMarkdown_prep P.files).Perm P.files)
    ∧ (∀ s, flowRun P prompts cmd thr tgt = .ok s →
        s.docs.map (fun d => d.path) = loadMarkdown_prep P.files
        ∧ s.doc_analyses.map (fun a => a.path) = s.docs.map (fun d => d.path)
        ∧ P.llm (promptMessages prompts.final_synthesis
            (String.intercalate "\n\n---\n\n"
              (s.doc_analyses.map (fun a => a.analysis))))
            = .ok s.final) := by
  constructor
  · exact ⟨List.sorted_insertionSort strLeP P.files,
      List.perm_insertionSort strLeP P.files⟩
  · intro s h
    simp only [flowRun] at h
    split at h
    next e ha => exact absurd h (by simp)
    next anns ha =>
      split at h
      next e hf => exact absurd h (by simp)
      next final hf =>
        split at h
        next e hr => exact absurd h (by simp)
        next rawEval hr =>
          split at h
          next e hj => exact absurd h (by simp)
          next evaluation hj =>
            injection h with h
            subst h
            refine ⟨?_, ?_, ?_⟩
            · simp [List.map_map, Function.comp_def]
            · exact (analyzeDocs_paths P.llm prompts.per_doc _ anns ha).trans
                (by simp [List.map_map, Function.comp_def])
            · exact hf

/-- Concrete pipeline environment for the C6 witness. -/
def c6Env : PipelineEnv :=
  ⟨["b.md", "a.md"], fun p => p, fun _ => .ok "ana",
   fun _ => .ok (wrap ⟨some "LOW", none, none⟩ 1), fun _ _ => ⟨0, "", ""⟩⟩

/-- Concrete prompts for the C6 witness. -/
def c6Prompts : Prompts := ⟨⟨"s", "u"⟩, ⟨"s", "u"⟩, ⟨"s", "u"⟩⟩

/-- The shared context the C6 witness run produces. -/
def c6Shared : SharedFinal :=
  ⟨[⟨"a.md", "a.md"⟩, ⟨"b.md", "b.md"⟩], [⟨"a.md", "ana"⟩, ⟨"b.md", "ana"⟩],
   "ana", ⟨some "LOW", none, none⟩, ⟨false, none, none, none⟩⟩

theorem c6_witness :
    c6Shared.docs.map (fun d => d.path) = loadMarkdown_prep c6Env.files
    ∧ c6Shared.doc_analyses.map (fun a => a.path)
        = c6Shared.docs.map (fun d => d.path)
    ∧ c6Env.llm (promptMessages c6Prompts.final_synthesis
        (String.intercalate "\n\n---\n\n"
          (c6Shared.doc_analyses.map (fun a => a.analysis))))
        = .ok c6Shared.final :=
  (c6_pipeline_ordering c6Env c6Prompts none "HIGH" "t").2 c6Shared (by rfl)

/-! ## Claim C2: orchestrator error isolation -/

theorem analyzeLoop_append (cfg : OrchCfg) (pre q : List (String × ArchiveModel))
    (h : (analyzeLoop cfg pre).2 = none) :
    analyzeLoop cfg (pre ++ q)
      = ((analyzeLoop cfg pre).1 ++ (analyzeLoop cfg q).1, (analyzeLoop cfg q).2) := by
  induction pre with
  | nil => simp [analyzeLoop]
  | cons p rest ih =>
    obtain ⟨t, a⟩ := p
    cases hr : run_llmanalyze cfg t a with
    | error e => simp [analyzeLoop, hr] at h
    | ok r =>
      have h2 : (analyzeLoop cfg rest).2 = none := by
        simpa [analyzeLoop, hr] using h
      simp [analyzeLoop, hr, ih h2]

/-- Prompts used by the concrete C2 runs. -/
def c2Prompts : Prompts := ⟨⟨"s", "u"⟩, ⟨"s", "u"⟩, ⟨"s", "u"⟩⟩

/-- A pipeline environment whose run succeeds end to end. -/
def c2GoodEnv : PipelineEnv :=
  ⟨["a.md"], fun p => p, fun _ => .ok "ana",
   fun _ => .ok (wrap ⟨some "LOW", none, none⟩ 1), fun _ _ => ⟨0, "", ""⟩⟩

/-- A pipeline environment whose evaluation response is wrapped four
times, so the evaluate stage fails with the decode error. -/
def c2FailEnv : PipelineEnv :=
  ⟨["a.md"], fun p => p, fun _ => .ok "ana",
   fun _ => .ok (wrap ⟨some "LOW", none, none⟩ 4), fun _ _ => ⟨0, "", ""⟩⟩

/-- Orchestrator configuration for the concrete C2 runs. -/
def c2Cfg : OrchCfg := ⟨"HIGH", none⟩

/-- A queued archive whose analysis succeeds. -/
def c2GoodArchive : ArchiveModel := ⟨true, c2GoodEnv, c2Prompts⟩

/-- A queued archive whose analysis subprocess fails (decode error). -/
def c2FailArchive : ArchiveModel := ⟨true, c2FailEnv, c2Prompts⟩

/-- Claim C2 counterexample: with a decode failure in the first queued
archive's analysis, the orchestrator loop terminates with the uncaught
`CalledProcessError` and processes nothing further — the second archive,
which alone is analyzed successfully (its loop ends with no error and a
written report), is never processed.  Other queued archives are thus not
unaffected, contrary to the claim. -/
theorem c2_counterexample :
    analyzeLoop c2Cfg [("t1", c2FailArchive), ("t2", c2GoodArchive)]
        = ([], some "response is not a JSON object")
    ∧ (analyzeLoop c2Cfg [("t2", c2GoodArchive)]).2 = none
    ∧ (analyzeLoop c2Cfg [("t2", c2GoodArchive)]).1.map
        (fun r => (r.1, r.2.isSome)) = [("t2", true)] :=
  ⟨rfl, rfl, rfl⟩

/-- Claim C2 (amended): pipeline stage errors are only partly isolated.
A missing-documents condition makes `run_llmanalyze` skip that archive
(no report) and the loop continues with the rest; an analysis-subprocess
failure (backend call failure, decode failure — nonzero exit under
`check=True`) writes no report for that archive but terminates the
orchestrator loop, so archives queued after it are not processed, while
archives queued before it are processed exactly as they would be on
their own. -/
theorem c2_error_isolation_amended (cfg : OrchCfg) (t : String)
    (a : ArchiveModel) (rest pre q : List (String × ArchiveModel)) :
    (a.sxsPresent = false →
      analyzeLoop cfg ((t, a) :: rest)
        = ((t, none) :: (analyzeLoop cfg rest).1, (analyzeLoop cfg rest).2))
    ∧ (∀ e, run_llmanalyze cfg t a = .error e →
        analyzeLoop cfg ((t, a) :: rest) = ([], some e))
    ∧ ((analyzeLoop cfg pre).2 = none →
        analyzeLoop cfg (pre ++ q)
          = ((analyzeLoop cfg pre).1 ++ (analyzeLoop cfg q).1,
             (analyzeLoop cfg q).2)) := by
  refine ⟨?_, ?_, ?_⟩
  · intro h
    simp [analyzeLoop, run_llmanalyze, h]
  · intro e he
    simp [analyzeLoop, he]
  · intro h
    exact analyzeLoop_append cfg pre q h

/-- A queued archive whose `sxs_html` documents directory is missing. -/
def c2SkipArchive : ArchiveModel := ⟨false, c2GoodEnv, c2Prompts⟩

theorem c2_witness :
    analyzeLoop c2Cfg [("t0", c2SkipArchive), ("t2", c2GoodArchive)]
        = (("t0", none) :: (analyzeLoop c2Cfg [("t2", c2GoodArchive)]).1,
           (analyzeLoop c2Cfg [("t2", c2GoodArchive)]).2)
    ∧ analyzeLoop c2Cfg [("t1", c2FailArchive)]
        = ([], some "response is not a JSON object")
    ∧ analyzeLoop c2Cfg ([("t2", c2GoodArchive)] ++ [("t1", c2FailArchive)])
        = ((analyzeLoop c2Cfg [("t2", c2GoodArchive)]).1
            ++ (analyzeLoop c2Cfg [("t1", c2FailArchive)]).1,
           (analyzeLoop c2Cfg [("t1", c2FailArchive)]).2) :=
  ⟨(c2_error_isolation_amended c2Cfg "t0" c2SkipArchive [("t2", c2GoodArchive)] [] []).1 rfl,
   (c2_error_isolation_amended c2Cfg "t1" c2FailArchive [] [] []).2.1
      "response is not a JSON object" rfl,
   (c2_error_isolation_amended c2Cfg "t1" c2FailArchive []
      [("t2", c2GoodArchive)] [("t1", c2FailArchive)]).2.2 rfl⟩

/-! ## Claim C7: bounded concurrency -/

theorem countRunning_nil : countRunning [] = 0 := rfl

theorem sched_invariant (N : Nat) (s : List JobPhase) (hN : 0 < N)
    (h : SchedReach N s) : countRunning s ≤ N := by
  induction h with
  | init => simp [countRunning]
  | step hr hstep ih =>
    cases hstep with
    | submit =>
      simpa [countRunning, List.countP_append, phaseRunning] using ih
    | start i hi hslot =>
      obtain ⟨hlen, hel⟩ := List.getElem?_eq_some.mp hi
      have hcount := List.countP_set phaseRunning _ i JobPhase.running hlen
      rw [hel] at hcount
      unfold countRunning at ih ⊢
      rw [hcount]
      simp [phaseRunning]
      rcases hslot with h0 | h0
      · omega
      · unfold countRunning at h0
        omega
    | finish i hi =>
      obtain ⟨hlen, hel⟩ := List.getElem?_eq_some.mp hi
      have hcount := List.countP_set phaseRunning _ i JobPhase.done hlen
      rw [hel] at hcount
      unfold countRunning at ih ⊢
      rw [hcount]
      simp [phaseRunning]
      omega

theorem reach_all_running (k : Nat) :
    SchedReach 0 (List.replicate k JobPhase.running) := by
  induction k with
  | zero => exact SchedReach.init
  | succ n ih =>
    have h1 : SchedReach 0 (List.replicate n JobPhase.running ++ [JobPhase.pending]) :=
      SchedReach.step ih (SchedStep.submit _)
    have hget : (List.replicate n JobPhase.running ++ [JobPhase.pending])[n]?
        = some JobPhase.pending := by
      have h0 := List.getElem?_concat_length (List.replicate n JobPhase.running)
        JobPhase.pending
      rwa [List.length_replicate] at h0
    have h2 := SchedReach.step h1
      (SchedStep.start (List.replicate n JobPhase.running ++ [JobPhase.pending]) n hget
        (Or.inl rfl))
    have h3 : (List.replicate n JobPhase.running ++ [JobPhase.pending]).set n JobPhase.running
        = List.replicate (n + 1) JobPhase.running := by
      rw [List.set_append]
      simp [List.replicate_succ']
    rw [h3] at h2
    exact h2

/-- Claim C7: in every reachable scheduler state with configured bound
`N > 0`, at most `N` diffing-engine invocations are executing
concurrently; with `N = 0` every submitted job may run at once (a state
with all `k` jobs simultaneously running is reachable for every `k`);
and the bound is enforced at the start of execution, never at
submission: the submit transition is enabled in every state. -/
theorem c7_concurrency_bound :
    (∀ N s, 0 < N → SchedReach N s → countRunning s ≤ N)
    ∧ (∀ k, SchedReach 0 (List.replicate k JobPhase.running)
        ∧ countRunning (List.replicate k JobPhase.running) = k)
    ∧ (∀ N s, SchedStep N s (s ++ [JobPhase.pending])) := by
  refine ⟨sched_invariant, ?_, fun N s => SchedStep.submit s⟩
  intro k
  refine ⟨reach_all_running k, ?_⟩
  simp [countRunning, List.countP_replicate, phaseRunning]

theorem c7_witness :
    countRunning [JobPhase.running] ≤ 1
    ∧ SchedReach 0 (List.replicate 2 JobPhase.running)
    ∧ SchedStep 1 [] ([] ++ [JobPhase.pending]) :=
  ⟨c7_concurrency_bound.1 1 [JobPhase.running] (by decide)
      (SchedReach.step
        (SchedReach.step SchedReach.init (SchedStep.submit []))
        (SchedStep.start [JobPhase.pending] 0 rfl (Or.inr (by decide)))),
   (c7_concurrency_bound.2.1 2).1,
   c7_concurrency_bound.2.2 1 []⟩

/-! ## Claim C8: engine failure semantics -/

/-- Claim C8: a diff job whose engine invocation fails logs the failure
and is non-fatal (`run_ghidriff_diff` returns normally — the raising
call sits inside try/except), the working directory is not moved
(nothing archived), no archive entry is enqueued for analysis, the
engine is invoked exactly once (no retry), and every other job's
processing is a function of its own inputs alone, so the run continues
for the other targets unchanged. -/
theorem c8_engine_failure_nonfatal (analyze verbose : Bool)
    (stderrMsg : Option String) (target ts : String) :
    (run_ghidriff_diff analyze verbose false stderrMsg target ts).archivedAt = none
    ∧ (run_ghidriff_diff analyze verbose false stderrMsg target ts).queued = []
    ∧ (run_ghidriff_diff analyze verbose false stderrMsg target ts).engineInvocations = 1
    ∧ ("[!] Ghidriff failed (" ++ target ++ ")")
        ∈ (run_ghidriff_diff analyze verbose false stderrMsg target ts).logs
    ∧ (∀ (pre post : List JobSpec) (j : JobSpec),
        runAllJobs (pre ++ j :: post)
          = runAllJobs pre
            ++ run_ghidriff_diff j.analyze j.verbose j.engineOk j.stderrMsg j.target j.ts
              :: runAllJobs post) := by
  refine ⟨rfl, rfl, rfl, ?_, ?_⟩
  · simp [run_ghidriff_diff]
  · intro pre post j
    simp [runAllJobs]

/-! ## Claim C9: target path confinement -/

/-- Claim C9: a target name whose resolved path does not lie under the
targets directory makes `resolve_target_dir` raise before any fetch
script is loaded (`load_and_run` propagates the error and loads
nothing); and any script `load_and_run` does load lies inside the
targets directory — it is exactly `fetch_target.py` under the resolved
target directory, which is prefixed by the targets directory. -/
theorem c9_target_path_confinement (base : List String)
    (isDir isFile : List String → Bool) (name : RawPath) :
    (¬ base.isPrefixOf (resolvePath base name) = true →
      load_and_run base isDir isFile name
        = .error "Target is outside the targets directory")
    ∧ (∀ script, load_and_run base isDir isFile name = .ok (some script) →
        base.isPrefixOf script = true
        ∧ script = resolvePath base name ++ ["fetch_target.py"]) := by
  constructor
  · intro h
    rw [Bool.not_eq_true] at h
    simp [load_and_run, resolve_target_dir, h]
  · intro script h
    by_cases hp : base.isPrefixOf (resolvePath base name) = true
    · by_cases hd : isDir (resolvePath base name) = true
      · by_cases hf : isFile (resolvePath base name ++ ["fetch_target.py"]) = true
        · simp [load_and_run, resolve_target_dir, hp, hd, hf] at h
          subst h
          refine ⟨?_, rfl⟩
          have hpre : base <+: resolvePath base name :=
            List.isPrefixOf_iff_prefix.mp hp
          exact List.isPrefixOf_iff_prefix.mpr
            (hpre.trans (List.prefix_append (resolvePath base name) ["fetch_target.py"]))
        · simp [load_and_run, resolve_target_dir, hp, hd, hf] at h
      · simp [load_and_run, resolve_target_dir, hp, hd] at h
    · simp [load_and_run, resolve_target_dir, hp] at h

theorem c9_witness :
    load_and_run ["root", "targets"] (fun _ => true) (fun _ => true)
        ⟨false, ["..", "etc"]⟩
        = .error "Target is outside the targets directory"
    ∧ (["root", "targets"].isPrefixOf
          ["root", "targets", "mrxsmb", "fetch_target.py"] = true
        ∧ ["root", "targets", "mrxsmb", "fetch_target.py"]
            = resolvePath ["root", "targets"] ⟨false, ["mrxsmb"]⟩
              ++ ["fetch_target.py"]) :=
  ⟨(c9_target_path_confinement ["root", "targets"] (fun _ => true) (fun _ => true)
      ⟨false, ["..", "etc"]⟩).1 (by decide),
   (c9_target_path_confinement ["root", "targets"] (fun _ => true) (fun _ => true)
      ⟨false, ["mrxsmb"]⟩).2 ["root", "targets", "mrxsmb", "fetch_target.py"] rfl⟩
